import Mathlib

/-!
Shallow embedding of the Form Schema Compiler & Conditional Navigation
Engine of `src/src/index.tsx` (Hampy51/form-builder-react).

JavaScript values that can appear in an answer record (`previewData`),
in a field's `defaultValue` or in the template context are modelled by
`JSVal`; an absent (`undefined`) entry is the `none` of `Option JSVal`.
The embedded functions mirror the source functions line by line:
`processTemplateValue`, `generateFormData`, `generateAllSchemas`,
`convertToExpression`, `exportCompleteFlow`, `isFieldVisible`,
`validateCurrentStep` and `executeNavigation`.
-/

/-- A JavaScript runtime value as used by the form engine: `null`, a string,
an array of strings (checkbox answers), or a nested object (the template
context tree). `undefined` is represented as `Option.none` one level up. -/
inductive JSVal where
  | null : JSVal
  | str (s : String) : JSVal
  | arr (xs : List String) : JSVal
  | obj (kvs : List (String × JSVal)) : JSVal

/-- JavaScript truthiness of a `JSVal`: `null` and `""` are falsy; arrays and
objects (even empty ones) are truthy. -/
def jsTruthy : JSVal → Bool
  | JSVal.null => false
  | JSVal.str s => !(s == "")
  | JSVal.arr _ => true
  | JSVal.obj _ => true

/-- `typeof v === "object"` in JavaScript: true for objects, arrays and
`null`. -/
def jsIsObjectType : JSVal → Bool
  | JSVal.obj _ => true
  | JSVal.arr _ => true
  | JSVal.null => true
  | JSVal.str _ => false

/-- `key in v` for an object or array: objects by key, arrays by canonical
decimal index. -/
def jsHasKey : JSVal → String → Bool
  | JSVal.obj kvs, k => (kvs.lookup k).isSome
  | JSVal.arr xs, k =>
      match k.toNat? with
      | some i => decide (i < xs.length) && (toString i == k)
      | none => false
  | _, _ => false

/-- `v[key]` for an object or array (only ever used after `jsHasKey`). -/
def jsGetKey : JSVal → String → JSVal
  | JSVal.obj kvs, k => (kvs.lookup k).getD JSVal.null
  | JSVal.arr xs, k =>
      match k.toNat? with
      | some i => match xs.get? i with
        | some s => JSVal.str s
        | none => JSVal.null
      | none => JSVal.null
  | _, _ => JSVal.null

/-- An answer record (`previewData` / `formData`): field id to value. -/
def AnswerRecord := List (String × JSVal)

/-- JavaScript object property write: overwrite the key in place when
present, append otherwise. -/
def setKey (l : List (String × JSVal)) (k : String) (v : JSVal) :
    List (String × JSVal) :=
  if (l.lookup k).isSome then
    l.map (fun p => if p.1 == k then (k, v) else p)
  else l ++ [(k, v)]

/-- The eight field kinds of the `FormField.type` union. -/
inductive FieldType where
  | title | text | textarea | select | radio | checkbox | file | readonly
deriving DecidableEq

/-- The `FormField` interface. Optional interface members are `Option`s;
an absent member is `none`. -/
structure FormField where
  id : String
  type : FieldType
  title : String
  required : Bool
  placeholder : Option String := none
  options : Option (List String) := none
  defaultValue : Option JSVal := none
  readOnly : Option Bool := none
  widget : Option String := none
  dependsOn : Option String := none
  showWhen : Option String := none
  acceptedFileTypes : Option (List String) := none
  maxFileSize : Option Nat := none
  multiple : Option Bool := none
  captureMode : Option String := none

/-- One `(value, nextStepName)` pair of a navigation rule. -/
structure NavCondition where
  value : String
  nextStepName : String

/-- The `NavigationRule` interface. -/
structure NavigationRule where
  fieldId : String
  conditions : List NavCondition
  defaultStepName : Option String := none

/-- The `Step` interface. -/
structure Step where
  id : String
  name : String
  description : String
  fields : List FormField
  actionName : String
  navigationRule : Option NavigationRule := none
  summaryCheckExpression : String := "true"

/-- JavaScript `a || b` for an optional string `a`: `b` when `a` is absent or
empty. -/
def jsOrStr (a : Option String) (b : String) : String :=
  match a with
  | some s => if s == "" then b else s
  | none => b

/-- JavaScript truthiness of an optional string (`undefined` and `""` are
falsy). -/
def jsTruthyStr (a : Option String) : Bool :=
  match a with
  | some s => !(s == "")
  | none => false

/-- `processTemplateValue`'s `for (const key of keys)` loop: walk `result`
key by key; `none` models the early `return value`. -/
def templateLoop : List String → JSVal → Option JSVal
  | [], result => some result
  | key :: keys, result =>
      if jsTruthy result && jsIsObjectType result && jsHasKey result key then
        templateLoop keys (jsGetKey result key)
      else none

/-- `processTemplateValue(value, context)` (index.tsx lines 380-403): resolve
a `#`-sigil template string against the context; any failure, and any falsy
resolved value, falls back to the original value. -/
def processTemplateValue (value : JSVal) (context : JSVal) : JSVal :=
  match value with
  | JSVal.str s =>
      if s.startsWith "#" then
        match templateLoop ((s.drop 1).splitOn ".") context with
        | some result => if jsTruthy result then result else value
        | none => value
      else value
  | v => v

/-- One iteration of the `fields.forEach` loop of `generateFormData`
(index.tsx lines 430-453): title fields are skipped; a defined non-null
`defaultValue` wins; otherwise the kind-appropriate empty value is written. -/
def formDataStep (formData : List (String × JSVal)) (field : FormField) :
    List (String × JSVal) :=
  if field.type = FieldType.title then formData
  else
    match field.defaultValue with
    | some JSVal.null | none =>
        match field.type with
        | FieldType.checkbox => setKey formData field.id (JSVal.arr [])
        | FieldType.file =>
            if field.multiple.getD false then
              setKey formData field.id (JSVal.arr [])
            else setKey formData field.id JSVal.null
        | _ => setKey formData field.id (JSVal.str "")
    | some v => setKey formData field.id v

/-- `generateFormData(fields)` (index.tsx lines 427-456): the default answer
record synthesizer. -/
def generateFormData (fields : List FormField) : List (String × JSVal) :=
  fields.foldl formDataStep []

/-- The JavaScript string join with a separator (`Array.prototype.join`). -/
def joinSep (sep : String) : List String → String
  | [] => ""
  | [x] => x
  | x :: xs => x ++ sep ++ joinSep sep xs

/-- `convertToExpression(rule)` (index.tsx lines 595-620), with the step's
fields (the source reads them from the enclosing `currentStep`) passed
explicitly. -/
def convertToExpression (fields : List FormField) (rule : NavigationRule) :
    String :=
  if !(jsTruthyStr (some rule.fieldId)) || rule.conditions.isEmpty then
    "\x27continue\x27"
  else
    match fields.find? (fun f => f.id == rule.fieldId) with
    | none => "\x27continue\x27"
    | some field =>
      if field.type = FieldType.checkbox then
        joinSep " : " (rule.conditions.map (fun cond =>
          "formData." ++ rule.fieldId ++ ".includes(\x27" ++ cond.value ++
            "\x27) ? \x27" ++ cond.nextStepName ++ "\x27"))
          ++ " : \x27" ++ jsOrStr rule.defaultStepName "continue" ++ "\x27"
      else
        joinSep " : " (rule.conditions.map (fun cond =>
          "formData." ++ rule.fieldId ++ " === \x27" ++ cond.value ++
            "\x27 ? \x27" ++ cond.nextStepName ++ "\x27"))
          ++ " : \x27" ++ jsOrStr rule.defaultStepName "continue" ++ "\x27"

/-- `getDefaultWidget(type)` (index.tsx lines 366-377). -/
def getDefaultWidget : FieldType → String
  | FieldType.text => "text"
  | FieldType.textarea => "textarea"
  | FieldType.select => "select"
  | FieldType.radio => "radio"
  | FieldType.checkbox => "checkboxes"
  | FieldType.file => "file"
  | FieldType.readonly => "textarea"
  | FieldType.title => "text"

/-- One property of the compiled data schema (`jsonSchema.properties[id]`).
Absent members are `none`. -/
structure PropertySchema where
  title : String
  type : String
  items : Option (String × List String) := none
  uniqueItems : Option Bool := none
  enum : Option (List String) := none
  format : Option String := none
  description : Option String := none
  default : Option JSVal := none
  readOnly : Option Bool := none

/-- The compiled data schema (`jsonSchema`). -/
structure JsonSchema where
  type : String
  description : String
  properties : List (String × PropertySchema)
  required : List String

/-- The `ui:options` object of a presentation-schema entry, one case per
shape the source builds. -/
inductive UiOpts where
  | choice (inline : Bool) (enumOptions : List (String × String)) : UiOpts
  | selectList (enumOptions : List (String × String)) : UiOpts
  | textRows (rows : Nat) : UiOpts
  | filePick (accept : String) (multiple : Bool) : UiOpts

/-- One field's entry in the presentation schema (`uiSchema[id]`). -/
structure UiConfig where
  widget : String
  placeholder : Option String := none
  readonly : Option Bool := none
  options : Option UiOpts := none

/-- The compiled presentation schema (`uiSchema`): the `ui:order` list, the
submit-button options and the per-field entries. -/
structure UiSchema where
  order : List String
  submitText : String
  norender : Bool
  fields : List (String × UiConfig)

/-- The compiled `actionSchema`. -/
structure ActionSchema where
  actionName : String
  summaryCheckExpression : String
  nextFlowDeterminationExpression : String

/-- The data-schema property built for one non-title field (index.tsx lines
483-513). -/
def buildProperty (field : FormField) : PropertySchema :=
  let base : PropertySchema :=
    { title := field.title
      type :=
        if field.type = FieldType.checkbox then "array"
        else if field.type = FieldType.file then "string"
        else "string" }
  let base :=
    if field.type = FieldType.checkbox then
      { base with items := some ("string", field.options.getD []),
                  uniqueItems := some true }
    else if field.type = FieldType.radio ∨ field.type = FieldType.select then
      { base with enum := some (field.options.getD []) }
    else if field.type = FieldType.file then
      { base with format := some "data-url",
                  description := some ("Max size: " ++
                    toString (match field.maxFileSize with
                      | some n => if n = 0 then 10 else n
                      | none => 10) ++ "MB") }
    else base
  let base :=
    if field.defaultValue.isSome ∧ field.type ≠ FieldType.readonly then
      { base with default := field.defaultValue }
    else base
  if field.readOnly.getD false ∨ field.type = FieldType.readonly then
    { base with readOnly := some true }
  else base

/-- The presentation-schema entry built for one non-title field (index.tsx
lines 522-577). -/
def buildUiConfig (field : FormField) : UiConfig :=
  let base : UiConfig := { widget := getDefaultWidget field.type }
  let base :=
    match field.placeholder with
    | some p => if p == "" then base else { base with placeholder := some p }
    | none => base
  let base :=
    if field.readOnly.getD false ∨ field.type = FieldType.readonly then
      { base with readonly := some true }
    else base
  let enumOpts := (field.options.getD []).map (fun opt => (opt, opt))
  match field.type with
  | FieldType.radio =>
      { base with widget := "radio", options := some (UiOpts.choice false enumOpts) }
  | FieldType.checkbox =>
      { base with widget := "checkboxes", options := some (UiOpts.choice false enumOpts) }
  | FieldType.select =>
      { base with widget := "select",
                  options := some (UiOpts.selectList
                    (("", "Choose an option...") :: enumOpts)) }
  | FieldType.textarea =>
      { base with widget := "textarea", options := some (UiOpts.textRows 4) }
  | FieldType.file =>
      { base with widget := "file",
                  options := some (UiOpts.filePick
                    (match field.acceptedFileTypes with
                     | some l =>
                        if String.intercalate "," l == "" then "*/*"
                        else String.intercalate "," l
                     | none => "*/*")
                    (field.multiple.getD false)) }
  | _ => base

/-- Accumulator of the `currentStep.fields.forEach` loop of
`generateAllSchemas`. -/
structure SchemaAcc where
  properties : List (String × PropertySchema)
  required : List String
  uiFields : List (String × UiConfig)
  order : List String

/-- One iteration of the `forEach` loop of `generateAllSchemas` (index.tsx
lines 480-581): title fields are skipped; property maps are object writes,
`required` and `ui:order` are array pushes. -/
def schemaStep (acc : SchemaAcc) (field : FormField) : SchemaAcc :=
  if field.type = FieldType.title then acc
  else
    { properties :=
        if (acc.properties.lookup field.id).isSome then
          acc.properties.map (fun p =>
            if p.1 == field.id then (field.id, buildProperty field) else p)
        else acc.properties ++ [(field.id, buildProperty field)]
      required :=
        acc.required ++ (if field.required then [field.id] else [])
      uiFields :=
        if (acc.uiFields.lookup field.id).isSome then
          acc.uiFields.map (fun p =>
            if p.1 == field.id then (field.id, buildUiConfig field) else p)
        else acc.uiFields ++ [(field.id, buildUiConfig field)]
      order := acc.order ++ [field.id] }

/-- The value of one `generateAllSchemas` call on a step. -/
structure Schemas where
  jsonSchema : JsonSchema
  uiSchema : UiSchema
  formData : List (String × JSVal)
  actionSchema : ActionSchema

/-- `generateAllSchemas()` returns empty objects when there is no current
step, a full `Schemas` otherwise. -/
inductive SchemasResult where
  | empty : SchemasResult
  | mk (s : Schemas) : SchemasResult

/-- `generateAllSchemas()` (index.tsx lines 459-592) over the current step
(`null` modelled as `none`). -/
def generateAllSchemas (currentStep : Option Step) : SchemasResult :=
  match currentStep with
  | none => SchemasResult.empty
  | some step =>
    let acc := step.fields.foldl schemaStep ⟨[], [], [], []⟩
    SchemasResult.mk
      { jsonSchema :=
          { type := "object", description := step.description,
            properties := acc.properties, required := acc.required }
        uiSchema :=
          { order := acc.order, submitText := "Continue", norender := false,
            fields := acc.uiFields }
        formData := generateFormData step.fields
        actionSchema :=
          { actionName := step.actionName
            summaryCheckExpression :=
              if step.summaryCheckExpression == "" then "true"
              else step.summaryCheckExpression
            nextFlowDeterminationExpression :=
              match step.navigationRule with
              | some rule => convertToExpression step.fields rule
              | none => "\x27continue\x27" } }

/-- One entry of the exported flow document's `steps` array. -/
structure ExportedStep where
  id : String
  name : String
  description : String
  order : Nat
  schemas : SchemasResult

/-- The exported flow document's `metadata`. -/
structure FlowMetadata where
  totalSteps : Nat
  totalFields : Nat
  fieldTypes : List String

/-- The exported flow document. -/
structure FlowExport where
  name : String
  description : String
  version : String
  created : String
  steps : List ExportedStep
  metadata : FlowMetadata

/-- The display name of a field kind, as it appears in `metadata.fieldTypes`. -/
def typeName : FieldType → String
  | FieldType.title => "title"
  | FieldType.text => "text"
  | FieldType.textarea => "textarea"
  | FieldType.select => "select"
  | FieldType.radio => "radio"
  | FieldType.checkbox => "checkbox"
  | FieldType.file => "file"
  | FieldType.readonly => "readonly"

/-- `Array.from(new Set(l))`: deduplicate keeping the first occurrence. -/
def jsSetDedup (l : List String) : List String :=
  l.foldl (fun acc s => if acc.contains s then acc else acc ++ [s]) []

/-- `exportCompleteFlow()` (index.tsx lines 640-689): the flow document it
serializes, `none` when the flow is empty (the export is refused). The
creation timestamp is a parameter (`new Date().toISOString()`); the
current-step index is the enclosing component state the inner
`generateAllSchemas()` call reads. -/
def exportCompleteFlow (currentFlowName created : String)
    (parsedSteps : List Step) (currentStepIndex : Nat) : Option FlowExport :=
  if parsedSteps.isEmpty then none
  else some
    { name := currentFlowName
      description := "Form with " ++ toString parsedSteps.length ++ " pages"
      version := "1.0"
      created := created
      steps := parsedSteps.enum.map (fun p =>
        { id := p.2.id, name := p.2.name, description := p.2.description,
          order := p.1 + 1,
          schemas := generateAllSchemas (parsedSteps.get? currentStepIndex) })
      metadata :=
        { totalSteps := parsedSteps.length
          totalFields := parsedSteps.foldl (fun sum st => sum + st.fields.length) 0
          fieldTypes := jsSetDedup ((parsedSteps.map
            (fun st => st.fields.map (fun f => typeName f.type))).flatten) } }

/-- The visibility emptiness test of `isFieldVisible`:
`dependentValue === undefined || dependentValue === null ||
dependentValue === ""`. -/
def jsIsEmptyVis : Option JSVal → Bool
  | none => true
  | some JSVal.null => true
  | some (JSVal.str s) => s == ""
  | some _ => false

/-- JavaScript strict equality of a runtime value with a string
(`v === w` where `w` is a string; `undefined`, `null`, arrays and objects
are never equal to a string). -/
def jsStrictEqStr (v : Option JSVal) (w : String) : Bool :=
  match v with
  | some (JSVal.str s) => s == w
  | _ => false

/-- `Array.isArray(v) ? v : []`. -/
def jsArrOrEmpty (v : Option JSVal) : List String :=
  match v with
  | some (JSVal.arr xs) => xs
  | _ => []

/-- `isFieldVisible(field)` (index.tsx lines 1171-1201), with the enclosing
component state (`currentStep`, `previewData`) passed explicitly. -/
def isFieldVisible (currentStep : Option Step) (previewData : AnswerRecord)
    (field : FormField) : Bool :=
  match field.dependsOn, field.showWhen with
  | some d, some w =>
    if d == "" || w == "" then true
    else
      let dependentValue := List.lookup d previewData
      match currentStep with
      | none => false
      | some st =>
        match st.fields.find? (fun f => f.id == d) with
        | none => false
        | some parentField =>
          if jsIsEmptyVis dependentValue then false
          else
            match parentField.type with
            | FieldType.radio => jsStrictEqStr dependentValue w
            | FieldType.select => jsStrictEqStr dependentValue w
            | FieldType.checkbox => (jsArrOrEmpty dependentValue).contains w
            | _ => jsStrictEqStr dependentValue w
  | _, _ => true

/-- The missing-answer test of the preview branch of `validateCurrentStep`:
unset, `null`, `""`, or an empty array. -/
def jsIsMissing : Option JSVal → Bool
  | none => true
  | some JSVal.null => true
  | some (JSVal.str s) => s == ""
  | some (JSVal.arr xs) => xs.isEmpty
  | some (JSVal.obj _) => false

/-- The value of `validateCurrentStep`. -/
structure ValidationResult where
  valid : Bool
  errors : List String

/-- `validateCurrentStep()` (index.tsx lines 1204-1247), with the enclosing
component state passed explicitly. In preview mode it collects one
required-field error per required, non-title, visible field whose answer is
missing; otherwise it collects structural authoring errors. -/
def validateCurrentStep (previewMode : Bool) (currentStep : Option Step)
    (previewData : AnswerRecord) : ValidationResult :=
  match currentStep with
  | none => { valid := true, errors := [] }
  | some step =>
    let errors :=
      if previewMode then
        step.fields.foldl
          (fun errors field =>
            if field.required && !(decide (field.type = FieldType.title)) &&
                isFieldVisible currentStep previewData field then
              if jsIsMissing (List.lookup field.id previewData) then
                errors ++ ["\"" ++ field.title ++ "\" is required"]
              else errors
            else errors)
          []
      else
        step.fields.foldl
          (fun errors field =>
            let errors :=
              if field.title.trim == "" then
                errors ++ ["Field \"" ++ field.id ++ "\" needs a title"]
              else errors
            let errors :=
              if (field.type = FieldType.select ∨ field.type = FieldType.radio ∨
                    field.type = FieldType.checkbox) ∧
                  (field.options.getD []).isEmpty then
                errors ++ ["\"" ++ field.title ++ "\" needs options"]
              else errors
            let sizeTooHigh : Bool :=
              match field.maxFileSize with
              | some n => decide (n ≠ 0) && decide (n > 100)
              | none => false
            if decide (field.type = FieldType.file) && sizeTooHigh then
              errors ++ ["\"" ++ field.title ++ "\" file size limit too high"]
            else errors)
          []
    { valid := errors.length == 0, errors := errors }

/-- The first-match target resolution of `executeNavigation` (index.tsx lines
1366-1378): conditions in listed order, sequence containment for a checkbox
driver field, strict equality otherwise, falling back to
`defaultStepName || "continue"`. -/
def resolveTargetStep (field : FormField) (rule : NavigationRule)
    (fieldValue : Option JSVal) : String :=
  if field.type = FieldType.checkbox then
    let selectedValues := jsArrOrEmpty fieldValue
    match rule.conditions.find? (fun cond => selectedValues.contains cond.value) with
    | some cond => cond.nextStepName
    | none => jsOrStr rule.defaultStepName "continue"
  else
    match rule.conditions.find? (fun cond => jsStrictEqStr fieldValue cond.value) with
    | some cond => cond.nextStepName
    | none => jsOrStr rule.defaultStepName "continue"

/-- The observable outcome of one `executeNavigation()` call: which state
update or status message the function performs. -/
inductive NavResult where
  | noStep : NavResult
  | validationFailed (errorCount : Nat) : NavResult
  | completeRequired : NavResult
  | goto (index : Nat) : NavResult
  | complete : NavResult
  | ended : NavResult
  | targetNotFound (name : String) : NavResult
deriving DecidableEq

/-- The navigation guard of `executeNavigation` (index.tsx lines 1355-1360):
the driver answer is `undefined`, `""`, or an empty array (`null` passes). -/
def jsNavGuardEmpty : Option JSVal → Bool
  | none => true
  | some (JSVal.str s) => s == ""
  | some (JSVal.arr xs) => xs.isEmpty
  | some _ => false

/-- `executeNavigation()` (index.tsx lines 1321-1407), with the enclosing
component state passed explicitly; returns the outcome it performs. -/
def executeNavigation (parsedSteps : List Step) (currentStepIndex : Nat)
    (previewData : AnswerRecord) (previewMode : Bool) : NavResult :=
  match parsedSteps.get? currentStepIndex with
  | none => NavResult.noStep
  | some currentStep =>
    let validation := validateCurrentStep previewMode (some currentStep) previewData
    if !validation.valid then NavResult.validationFailed validation.errors.length
    else
      match currentStep.navigationRule with
      | none =>
        if currentStepIndex < parsedSteps.length - 1 then
          NavResult.goto (currentStepIndex + 1)
        else NavResult.complete
      | some rule =>
        let fieldValue := List.lookup rule.fieldId previewData
        match currentStep.fields.find? (fun f => f.id == rule.fieldId) with
        | none => NavResult.completeRequired
        | some field =>
          if jsNavGuardEmpty fieldValue then NavResult.completeRequired
          else
            let targetStep := resolveTargetStep field rule fieldValue
            if targetStep == "continue" then
              if currentStepIndex < parsedSteps.length - 1 then
                NavResult.goto (currentStepIndex + 1)
              else NavResult.complete
            else if targetStep == "end" then NavResult.ended
            else if targetStep == "skip" then
              NavResult.goto (parsedSteps.length - 1)
            else
              match parsedSteps.findIdx? (fun s => s.name == targetStep) with
              | some i => NavResult.goto i
              | none => NavResult.targetNotFound targetStep

/-- The apostrophe character quoting string literals in navigation
expressions. -/
def qc : Char := '\x27'

/-- `"formData."` as characters: the member-access head of every test. -/
def fdChars : List Char := ['f', 'o', 'r', 'm', 'D', 'a', 't', 'a', '.']

/-- `".includes('"` as characters: the opening of a containment test. -/
def incOpen : List Char := ['.', 'i', 'n', 'c', 'l', 'u', 'd', 'e', 's', '(', qc]

/-- `") ? '"` as characters: the text between a containment test's value and
its branch result. -/
def incMid : List Char := [')', ' ', '?', ' ', qc]

/-- `" === '"` as characters: the opening of an equality test. -/
def eqOpen : List Char := [' ', '=', '=', '=', ' ', qc]

/-- `" ? '"` as characters: the text between an equality test's value and its
branch result. -/
def eqMid : List Char := [' ', '?', ' ', qc]

/-- `" : "` as characters: the branch separator. -/
def sepChars : List Char := [' ', ':', ' ']

/-- A character allowed in a `formData.<id>` member name. -/
def isIdChar (c : Char) : Bool := c.isAlphanum || c == '_'

/-- One test of a navigation expression: `formData.<id>.includes('<v>')` or
`formData.<id> === '<v>'`. -/
inductive NavTest where
  | includes (fieldId value : String) : NavTest
  | eq (fieldId value : String) : NavTest

/-- One `<test> ? '<result>'` branch of a navigation expression. -/
structure NavBranch where
  test : NavTest
  result : String

/-- A parsed navigation expression: a left-to-right chain of branches ending
in a quoted literal. -/
structure NavExpr where
  branches : List NavBranch
  dflt : String

/-- Scan to the next quote: `some (before, after)` splits at the first
apostrophe, `none` when there is none. -/
def readUntilQuote : List Char → Option (List Char × List Char)
  | [] => none
  | c :: rest =>
      if c == qc then some ([], rest)
      else
        match readUntilQuote rest with
        | some (before, after) => some (c :: before, after)
        | none => none

/-- Drop an expected literal prefix, `none` when the text does not start with
it. -/
def stripSeq (p s : List Char) : Option (List Char) :=
  if p.isPrefixOf s then some (s.drop p.length) else none

/-- Fuelled recursive-descent parser for the grammar
`E := '<lit>' | formData.<id>.includes('<v>') ? '<r>' : E
            | formData.<id> === '<v>' ? '<r>' : E`. -/
def parseAux : Nat → List Char → Option NavExpr
  | 0, _ => none
  | fuel + 1, s =>
    match stripSeq [qc] s with
    | some r0 =>
        (match readUntilQuote r0 with
         | some (lit, rest2) =>
             if rest2.isEmpty then some { branches := [], dflt := String.mk lit }
             else none
         | none => none)
    | none =>
        match stripSeq fdChars s with
        | none => none
        | some r1 =>
          let id := r1.takeWhile isIdChar
          let r2 := r1.dropWhile isIdChar
          if id.isEmpty then none
          else
            match stripSeq incOpen r2 with
            | some r3 =>
              match readUntilQuote r3 with
              | none => none
              | some (v, r4) =>
                match stripSeq incMid r4 with
                | none => none
                | some r5 =>
                  match readUntilQuote r5 with
                  | none => none
                  | some (res, r6) =>
                    match stripSeq sepChars r6 with
                    | none => none
                    | some r7 =>
                      match parseAux fuel r7 with
                      | none => none
                      | some e =>
                          some { branches :=
                                   ⟨NavTest.includes (String.mk id) (String.mk v),
                                    String.mk res⟩ :: e.branches,
                                 dflt := e.dflt }
            | none =>
              match stripSeq eqOpen r2 with
              | none => none
              | some r3 =>
                match readUntilQuote r3 with
                | none => none
                | some (v, r4) =>
                  match stripSeq eqMid r4 with
                  | none => none
                  | some r5 =>
                    match readUntilQuote r5 with
                    | none => none
                    | some (res, r6) =>
                      match stripSeq sepChars r6 with
                      | none => none
                      | some r7 =>
                        match parseAux fuel r7 with
                        | none => none
                        | some e =>
                            some { branches :=
                                     ⟨NavTest.eq (String.mk id) (String.mk v),
                                      String.mk res⟩ :: e.branches,
                                   dflt := e.dflt }

/-- Parse a navigation expression string. -/
def parseNavExpression (s : String) : Option NavExpr :=
  parseAux (s.data.length + 1) s.data

/-- Evaluate one test against the answer record with JavaScript semantics:
`includes` on an array is membership, on a string it is substring search, and
on `undefined`/`null`/an object it throws (`none`); `===` never throws. -/
def evalNavTest (answers : AnswerRecord) : NavTest → Option Bool
  | NavTest.includes fieldId v =>
      match List.lookup fieldId answers with
      | some (JSVal.arr xs) => some (xs.contains v)
      | some (JSVal.str s) => some (decide (v.data <:+: s.data))
      | _ => none
  | NavTest.eq fieldId v =>
      some (jsStrictEqStr (List.lookup fieldId answers) v)

/-- Evaluate a branch chain left to right, first successful test winning. -/
def evalBranches (answers : AnswerRecord) (dflt : String) :
    List NavBranch → Option String
  | [] => some dflt
  | b :: bs =>
      match evalNavTest answers b.test with
      | none => none
      | some true => some b.result
      | some false => evalBranches answers dflt bs

/-- Evaluate a parsed navigation expression against an answer record. -/
def evalNavExpr (e : NavExpr) (answers : AnswerRecord) : Option String :=
  evalBranches answers e.dflt e.branches

/-- Parse and evaluate a navigation expression string against an answer
record; `none` when the string does not parse or evaluation throws. -/
def parseEvalNavExpression (s : String) (answers : AnswerRecord) :
    Option String :=
  match parseNavExpression s with
  | some e => evalNavExpr e answers
  | none => none

/-- The `ui:order` list of a compile result (empty objects carry none). -/
def uiOrderOf : SchemasResult → List String
  | SchemasResult.empty => []
  | SchemasResult.mk s => s.uiSchema.order

theorem order_foldl (fields : List FormField) : ∀ acc : SchemaAcc,
    (fields.foldl schemaStep acc).order =
      acc.order ++
        (fields.filter (fun f => !(decide (f.type = FieldType.title)))).map
          (fun f => f.id) := by
  induction fields with
  | nil => intro acc; simp
  | cons f fs ih =>
    intro acc
    by_cases h : f.type = FieldType.title
    · simp [schemaStep, h, ih]
    · simp [schemaStep, h, ih, List.append_assoc]

/-- Claim C9: the `ui:order` list of the compiled presentation schema equals
the step's field id sequence with title fields removed, in the original
field order. -/
theorem C9_ui_order_roundtrip (step : Step) :
    uiOrderOf (generateAllSchemas (some step)) =
      (step.fields.filter (fun f => !(decide (f.type = FieldType.title)))).map
        (fun f => f.id) := by
  simp [generateAllSchemas, uiOrderOf, order_foldl]

theorem validate_preview_foldl (cs : Option Step) (pd : AnswerRecord)
    (fields : List FormField) : ∀ errs : List String,
    fields.foldl
      (fun errors field =>
        if field.required && !(decide (field.type = FieldType.title)) &&
            isFieldVisible cs pd field then
          if jsIsMissing (List.lookup field.id pd) then
            errors ++ ["\"" ++ field.title ++ "\" is required"]
          else errors
        else errors) errs
    = errs ++
        (fields.filter (fun f =>
          (f.required && !(decide (f.type = FieldType.title)) &&
            isFieldVisible cs pd f) &&
          jsIsMissing (List.lookup f.id pd))).map
          (fun f => "\"" ++ f.title ++ "\" is required") := by
  induction fields with
  | nil => intro errs; simp
  | cons f fs ih =>
    intro errs
    rw [List.foldl_cons, ih]
    by_cases hr : f.required = true <;>
      by_cases ht : f.type = FieldType.title <;>
      by_cases hv : isFieldVisible cs pd f = true <;>
      by_cases hm : jsIsMissing (List.lookup f.id pd) = true <;>
      simp [hr, ht, hv, hm, List.filter_cons, List.append_assoc]

/-- Claim C8: in preview mode, `validateCurrentStep` returns exactly one
error naming the field's title for each required, non-title, currently
visible field whose answer is unset, null, empty, or an empty sequence —
and no other errors. -/
theorem C8_validate_preview_errors (step : Step) (answers : AnswerRecord) :
    (validateCurrentStep true (some step) answers).errors =
      (step.fields.filter (fun f =>
          (f.required && !(decide (f.type = FieldType.title)) &&
            isFieldVisible (some step) answers f) &&
          jsIsMissing (List.lookup f.id answers))).map
        (fun f => "\"" ++ f.title ++ "\" is required") := by
  have h := validate_preview_foldl (some step) answers step.fields []
  exact h.trans (List.nil_append _)

theorem lookup_cons_eq2 (k : String) (a2 : JSVal) (t : List (String × JSVal)) :
    List.lookup k ((k, a2) :: t) = some a2 := by
  simp [List.lookup]

theorem lookup_cons_ne2 (k a1 : String) (a2 : JSVal) (t : List (String × JSVal))
    (h : k ≠ a1) : List.lookup k ((a1, a2) :: t) = List.lookup k t := by
  have hb : (k == a1) = false := by simp [h]
  simp [List.lookup, hb]

theorem lookup_map_overwrite (k : String) (v : JSVal) :
    ∀ l : List (String × JSVal), (List.lookup k l).isSome = true →
      List.lookup k (l.map (fun p => if p.1 == k then (k, v) else p)) = some v := by
  intro l
  induction l with
  | nil => intro h; simp [List.lookup] at h
  | cons a t ih =>
    obtain ⟨a1, a2⟩ := a
    intro h
    by_cases hk : k = a1
    · subst hk
      rw [List.map_cons, if_pos (beq_self_eq_true k), lookup_cons_eq2]
    · rw [lookup_cons_ne2 k a1 a2 t hk] at h
      rw [List.map_cons, if_neg (by simp [Ne.symm hk] : ¬((a1, a2).1 == k) = true),
        lookup_cons_ne2 k a1 a2 _ hk]
      exact ih h

theorem lookup_map_ne (k k2 : String) (v : JSVal) (hne : k2 ≠ k) :
    ∀ l : List (String × JSVal),
      List.lookup k2 (l.map (fun p => if p.1 == k then (k, v) else p)) =
        List.lookup k2 l := by
  intro l
  induction l with
  | nil => simp
  | cons a t ih =>
    obtain ⟨a1, a2⟩ := a
    by_cases ha : a1 = k
    · subst ha
      rw [List.map_cons, if_pos (beq_self_eq_true a1),
        lookup_cons_ne2 k2 a1 v _ hne, lookup_cons_ne2 k2 a1 a2 t hne]
      exact ih
    · rw [List.map_cons, if_neg (by simp [ha] : ¬((a1, a2).1 == k) = true)]
      by_cases h2 : k2 = a1
      · subst h2
        rw [lookup_cons_eq2, lookup_cons_eq2]
      · rw [lookup_cons_ne2 k2 a1 a2 _ h2, lookup_cons_ne2 k2 a1 a2 t h2]
        exact ih

theorem lookup_append_single_self (k : String) (v : JSVal) :
    ∀ l : List (String × JSVal), List.lookup k l = none →
      List.lookup k (l ++ [(k, v)]) = some v := by
  intro l
  induction l with
  | nil => intro _; simp [List.lookup]
  | cons a t ih =>
    obtain ⟨a1, a2⟩ := a
    intro h
    by_cases hk : k = a1
    · subst hk; rw [lookup_cons_eq2] at h; exact absurd h (by simp)
    · rw [lookup_cons_ne2 k a1 a2 t hk] at h
      rw [List.cons_append, lookup_cons_ne2 k a1 a2 _ hk]
      exact ih h

theorem lookup_append_single_ne (k k2 : String) (v : JSVal) (hne : k2 ≠ k) :
    ∀ l : List (String × JSVal),
      List.lookup k2 (l ++ [(k, v)]) = List.lookup k2 l := by
  intro l
  induction l with
  | nil =>
    have hb : (k2 == k) = false := by simp [hne]
    simp [List.lookup, hb]
  | cons a t ih =>
    obtain ⟨a1, a2⟩ := a
    by_cases h2 : k2 = a1
    · subst h2; rw [List.cons_append, lookup_cons_eq2, lookup_cons_eq2]
    · rw [List.cons_append, lookup_cons_ne2 k2 a1 a2 _ h2,
        lookup_cons_ne2 k2 a1 a2 t h2]
      exact ih

theorem lookup_setKey_self (l : List (String × JSVal)) (k : String) (v : JSVal) :
    List.lookup k (setKey l k v) = some v := by
  unfold setKey
  by_cases hs : (List.lookup k l).isSome = true
  · rw [if_pos hs]; exact lookup_map_overwrite k v l hs
  · rw [if_neg hs]
    apply lookup_append_single_self
    cases h : List.lookup k l with
    | none => rfl
    | some w => exact absurd (by simp [h]) hs

theorem lookup_setKey_ne (l : List (String × JSVal)) (k k2 : String) (v : JSVal)
    (hne : k2 ≠ k) : List.lookup k2 (setKey l k v) = List.lookup k2 l := by
  unfold setKey
  by_cases hs : (List.lookup k l).isSome = true
  · rw [if_pos hs]; exact lookup_map_ne k k2 v hne l
  · rw [if_neg hs]; exact lookup_append_single_ne k k2 v hne l

theorem formDataStep_shape (acc : List (String × JSVal)) (f : FormField) :
    formDataStep acc f = acc ∨ ∃ w, formDataStep acc f = setKey acc f.id w := by
  unfold formDataStep
  repeat' first
  | exact Or.inl rfl
  | exact Or.inr ⟨_, rfl⟩
  | split

theorem formDataStep_lookup_ne (acc : List (String × JSVal)) (f : FormField)
    (k : String) (h : k ≠ f.id) :
    List.lookup k (formDataStep acc f) = List.lookup k acc := by
  rcases formDataStep_shape acc f with h1 | ⟨w, h1⟩
  · rw [h1]
  · rw [h1]; exact lookup_setKey_ne acc f.id k w h

theorem formdata_foldl_preserve (k : String) :
    ∀ (fields : List FormField) (acc : List (String × JSVal)),
      (∀ f ∈ fields, k ≠ f.id) →
      List.lookup k (fields.foldl formDataStep acc) = List.lookup k acc := by
  intro fields
  induction fields with
  | nil => intro acc _; rfl
  | cons g gs ih =>
    intro acc h
    rw [List.foldl_cons, ih (formDataStep acc g) (fun f hf => h f (List.mem_cons_of_mem g hf)),
        formDataStep_lookup_ne acc g k (h g (List.mem_cons_self g gs))]

theorem c7_file_branch (acc : List (String × JSVal)) (f : FormField) :
    List.lookup f.id
        (if f.multiple.getD false then setKey acc f.id (JSVal.arr [])
         else setKey acc f.id JSVal.null) =
      some (if f.multiple.getD false then JSVal.arr [] else JSVal.null) := by
  by_cases hmul : f.multiple.getD false = true
  · rw [if_pos hmul, if_pos hmul]; exact lookup_setKey_self acc f.id _
  · rw [if_neg hmul, if_neg hmul]; exact lookup_setKey_self acc f.id _

theorem c7_aux :
    ∀ (fields : List FormField) (acc : List (String × JSVal)) (f : FormField),
      f ∈ fields → (fields.map (fun g => g.id)).Nodup →
      List.lookup f.id acc = none →
      List.lookup f.id (fields.foldl formDataStep acc) =
        (if f.type = FieldType.title then none
         else some (match f.defaultValue with
           | some JSVal.null | none =>
               match f.type with
               | FieldType.checkbox => JSVal.arr []
               | FieldType.file =>
                   if f.multiple.getD false then JSVal.arr [] else JSVal.null
               | _ => JSVal.str ""
           | some v => v)) := by
  intro fields
  induction fields with
  | nil => intro acc f hmem; exact absurd hmem (List.not_mem_nil f)
  | cons g gs ih =>
    intro acc f hmem hnodup hacc
    rw [List.foldl_cons]
    rcases List.mem_cons.mp hmem with rfl | hmem2
    · have hnot : f.id ∉ gs.map (fun g => g.id) := (List.nodup_cons.mp hnodup).1
      have hpres : ∀ g2 ∈ gs, f.id ≠ g2.id := by
        intro g2 hg2 heq
        exact hnot (heq ▸ List.mem_map_of_mem (fun g => g.id) hg2)
      rw [formdata_foldl_preserve f.id gs (formDataStep acc f) hpres]
      by_cases ht : f.type = FieldType.title
      · rw [if_pos ht]
        unfold formDataStep
        rw [if_pos ht]
        exact hacc
      · rw [if_neg ht]
        unfold formDataStep
        rw [if_neg ht]
        cases hd : f.defaultValue with
        | none =>
            cases htp : f.type <;>
              first
              | exact lookup_setKey_self acc f.id _
              | exact c7_file_branch acc f
        | some v =>
            cases v with
            | null =>
                cases htp : f.type <;>
                  first
                  | exact lookup_setKey_self acc f.id _
                  | exact c7_file_branch acc f
            | str s => exact lookup_setKey_self acc f.id _
            | arr xs => exact lookup_setKey_self acc f.id _
            | obj kvs => exact lookup_setKey_self acc f.id _
    · have hne : f.id ≠ g.id := by
        intro heq
        have hmm : f.id ∈ gs.map (fun g => g.id) :=
          List.mem_map_of_mem (fun g => g.id) hmem2
        rw [heq] at hmm
        exact (List.nodup_cons.mp hnodup).1 hmm
      exact ih (formDataStep acc g) f hmem2 (List.nodup_cons.mp hnodup).2
        ((formDataStep_lookup_ne acc g f.id hne).trans hacc)

/-- Claim C7: `generateFormData` skips title fields (with distinct field ids
a title field gets no entry) and, for each remaining field, yields its
`defaultValue` when a non-null one is set, otherwise the empty sequence for
checkbox, the empty sequence for file with `multiple`, null for file without
`multiple`, and the empty string for every other kind. -/
theorem C7_generate_form_data (fields : List FormField) (f : FormField)
    (hmem : f ∈ fields) (hnodup : (fields.map (fun g => g.id)).Nodup) :
    List.lookup f.id (generateFormData fields) =
      (if f.type = FieldType.title then none
       else some (match f.defaultValue with
         | some JSVal.null | none =>
             match f.type with
             | FieldType.checkbox => JSVal.arr []
             | FieldType.file =>
                 if f.multiple.getD false then JSVal.arr [] else JSVal.null
             | _ => JSVal.str ""
         | some v => v)) :=
  c7_aux fields [] f hmem hnodup rfl

/-- Claim C6: template resolution returns non-template values unchanged;
for a `#`-template it walks the dotted path by monadic lookup, returning the
original string when any key is missing or an intermediate is not a truthy
object, and also when the fully resolved value is falsy (null or empty). -/
theorem C6_template_resolution (value context : JSVal) :
    processTemplateValue value context =
      (match value with
       | JSVal.str s =>
           if s.startsWith "#" then
             match ((s.drop 1).splitOn ".").foldlM
                 (fun r k =>
                   if jsTruthy r && jsIsObjectType r && jsHasKey r k then
                     some (jsGetKey r k)
                   else none) context with
             | some result => if jsTruthy result then result else JSVal.str s
             | none => JSVal.str s
           else JSVal.str s
       | v => v) := by
  have hloop : ∀ (keys : List String) (r : JSVal),
      templateLoop keys r =
        keys.foldlM
          (fun r k =>
            if jsTruthy r && jsIsObjectType r && jsHasKey r k then
              some (jsGetKey r k)
            else none) r := by
    intro keys
    induction keys with
    | nil => intro r; rfl
    | cons k ks ih =>
      intro r
      by_cases h : (jsTruthy r && jsIsObjectType r && jsHasKey r k) = true
      · simp [templateLoop, List.foldlM, h, ih]
      · simp [templateLoop, List.foldlM, h]
  cases value with
  | str s =>
    by_cases hs : s.startsWith "#" = true
    · simp [processTemplateValue, hs, hloop]
    · simp [processTemplateValue, hs]
  | null => rfl
  | arr xs => rfl
  | obj kvs => rfl

/-- Claim C10: a field whose `dependsOn` is set but whose `showWhen` is unset
is visible unconditionally, whatever the step and the answers. -/
theorem C10_visible_when_show_when_unset (field : FormField) (d : String)
    (hd : field.dependsOn = some d) (hw : field.showWhen = none) :
    ∀ (currentStep : Option Step) (answers : AnswerRecord),
      isFieldVisible currentStep answers field = true := by
  intro cs answers
  simp [isFieldVisible, hd, hw]

def c10Field : FormField :=
  { id := "city", type := FieldType.text, title := "City", required := false,
    dependsOn := some "country" }

def c10Step : Step :=
  { id := "s1", name := "Page 1", description := "", fields := [],
    actionName := "submit" }

theorem C10_witness : isFieldVisible (some c10Step) [] c10Field = true :=
  C10_visible_when_show_when_unset c10Field "country" rfl rfl (some c10Step) []

/-- Claim C4 counterexample: `c10Field` names the driver `country`, no field
of the step has id `country`, yet the field is visible — because its
`showWhen` is unset, the fail-closed dangling-dependency rule of the claim
does not fire. -/
theorem C4_counterexample :
    c10Field.dependsOn = some "country" ∧
    c10Step.fields.all (fun f => !(f.id == "country")) = true ∧
    isFieldVisible (some c10Step) [] c10Field = true :=
  ⟨rfl, rfl, rfl⟩

/-- Claim C4 (amended: both `dependsOn` and `showWhen` set and non-empty):
visibility is fail-closed on a dangling driver, fail-closed on an
unset/null/empty driver answer, then sequence containment for a checkbox
driver and exact string equality for every other driver kind. -/
theorem C4_visibility (step : Step) (answers : AnswerRecord)
    (field : FormField) (d w : String)
    (hd : field.dependsOn = some d) (hd2 : d ≠ "")
    (hw : field.showWhen = some w) (hw2 : w ≠ "") :
    isFieldVisible (some step) answers field =
      (match step.fields.find? (fun f => f.id == d) with
       | none => false
       | some parent =>
         if jsIsEmptyVis (List.lookup d answers) then false
         else
           match parent.type with
           | FieldType.checkbox =>
               match List.lookup d answers with
               | some (JSVal.arr xs) => xs.contains w
               | _ => false
           | _ =>
               match List.lookup d answers with
               | some (JSVal.str s) => s == w
               | _ => false) := by
  have h0 : (d == "" || w == "") = false := by simp [hd2, hw2]
  simp only [isFieldVisible, hd, hw, h0, Bool.false_eq_true, if_false]
  cases hfind : step.fields.find? (fun f => f.id == d) with
  | none => simp
  | some parent =>
    simp only []
    by_cases he : jsIsEmptyVis (List.lookup d answers) = true
    · rw [if_pos he, if_pos he]
    · rw [if_neg he, if_neg he]
      cases htp : parent.type <;>
        (cases hlook : List.lookup d answers with
         | none => rfl
         | some v2 => cases v2 <;> rfl)

def c4Country : FormField :=
  { id := "country", type := FieldType.radio, title := "Country",
    required := false, options := some ["US", "CA"] }

def c4City : FormField :=
  { id := "city", type := FieldType.text, title := "City", required := false,
    dependsOn := some "country", showWhen := some "US" }

def c4Step : Step :=
  { id := "s1", name := "Page 1", description := "", fields := [c4Country, c4City],
    actionName := "submit" }

theorem C4_witness :
    isFieldVisible (some c4Step) [("country", JSVal.str "US")] c4City = true := by
  have h := C4_visibility c4Step [("country", JSVal.str "US")] c4City
    "country" "US" rfl (by decide) rfl (by decide)
  rw [h]
  rfl

/-- The claim's outcome mapping for a resolved target name: `continue`
advances or completes, `end` ends early, `skip` jumps to the final index, a
step name jumps to its index, anything else is the not-found error. -/
def navOutcomeOf (parsedSteps : List Step) (idx : Nat) (target : String) :
    NavResult :=
  if target == "continue" then
    if idx < parsedSteps.length - 1 then NavResult.goto (idx + 1)
    else NavResult.complete
  else if target == "end" then NavResult.ended
  else if target == "skip" then NavResult.goto (parsedSteps.length - 1)
  else
    match parsedSteps.findIdx? (fun s => s.name == target) with
    | some i => NavResult.goto i
    | none => NavResult.targetNotFound target

/-- Claim C5: with a navigation rule, a resolvable driver field, a non-empty
driver answer and passing validation, `executeNavigation` resolves the
target by first match in listed order (`resolveTargetStep`) and dispatches
it: `continue` advances or completes on the last step, `end` ends early,
`skip` jumps to the final step, a known step name jumps to its index, and an
unknown name is reported as not found with no navigation. -/
theorem C5_navigation_outcomes (parsedSteps : List Step) (idx : Nat)
    (answers : AnswerRecord) (step : Step) (rule : NavigationRule)
    (field : FormField)
    (hstep : parsedSteps.get? idx = some step)
    (hvalid : (validateCurrentStep true (some step) answers).valid = true)
    (hrule : step.navigationRule = some rule)
    (hfield : step.fields.find? (fun f => f.id == rule.fieldId) = some field)
    (hval : jsNavGuardEmpty (List.lookup rule.fieldId answers) = false) :
    executeNavigation parsedSteps idx answers true =
      navOutcomeOf parsedSteps idx
        (resolveTargetStep field rule (List.lookup rule.fieldId answers)) := by
  unfold executeNavigation
  rw [hstep]
  simp only [hvalid, Bool.not_true, Bool.false_eq_true, if_false, hrule, hfield,
    hval, navOutcomeOf]

/-- Claim C2 (amended): when the rule's `fieldId` resolves to no field of the
step, the builder returns the quoted continuation marker, but the evaluator
does not advance — it blocks with the complete-required-fields status. -/
theorem C2_dangling_field_id (parsedSteps : List Step) (idx : Nat)
    (answers : AnswerRecord) (step : Step) (rule : NavigationRule)
    (hstep : parsedSteps.get? idx = some step)
    (hvalid : (validateCurrentStep true (some step) answers).valid = true)
    (hrule : step.navigationRule = some rule)
    (hmiss : step.fields.find? (fun f => f.id == rule.fieldId) = none) :
    convertToExpression step.fields rule = "\x27continue\x27" ∧
    executeNavigation parsedSteps idx answers true =
      NavResult.completeRequired := by
  constructor
  · unfold convertToExpression
    by_cases h : (!(jsTruthyStr (some rule.fieldId)) || rule.conditions.isEmpty) = true
    · rw [if_pos h]
    · rw [if_neg h, hmiss]
  · unfold executeNavigation
    rw [hstep]
    simp only [hvalid, Bool.not_true, Bool.false_eq_true, if_false, hrule, hmiss]

def c2Ghost : Step :=
  { id := "s1", name := "Page 1", description := "", fields := [],
    actionName := "submit",
    navigationRule := some { fieldId := "ghost",
                             conditions := [⟨"x", "Page 2"⟩] } }

def c2Follow : Step :=
  { id := "s2", name := "Page 2", description := "", fields := [],
    actionName := "submit2" }

/-- Claim C2 counterexample: a rule naming the deleted field `ghost` makes
the builder emit the continuation marker, but the evaluator blocks with the
complete-required-fields status instead of advancing to step 1. -/
theorem C2_counterexample :
    convertToExpression c2Ghost.fields
        { fieldId := "ghost", conditions := [⟨"x", "Page 2"⟩] } =
      "\x27continue\x27" ∧
    executeNavigation [c2Ghost, c2Follow] 0 [] true =
      NavResult.completeRequired ∧
    NavResult.completeRequired ≠ NavResult.goto 1 :=
  ⟨rfl, rfl, by decide⟩

def c2GhostSolo : Step :=
  { id := "s9", name := "Only page", description := "", fields := [],
    actionName := "submit9",
    navigationRule := some { fieldId := "gone",
                             conditions := [⟨"v", "Elsewhere"⟩] } }

theorem C2_witness :
    convertToExpression c2GhostSolo.fields
        { fieldId := "gone", conditions := [⟨"v", "Elsewhere"⟩] } =
      "\x27continue\x27" ∧
    executeNavigation [c2GhostSolo] 0 [] true = NavResult.completeRequired :=
  C2_dangling_field_id [c2GhostSolo] 0 [] c2GhostSolo
    { fieldId := "gone", conditions := [⟨"v", "Elsewhere"⟩] } rfl rfl rfl rfl

def c5Color : FormField :=
  { id := "color", type := FieldType.radio, title := "Color",
    required := false, options := some ["Red", "Blue"] }

def c5Rule : NavigationRule :=
  { fieldId := "color", conditions := [⟨"Red", "Page 2"⟩],
    defaultStepName := some "continue" }

def c5Step1 : Step :=
  { id := "s1", name := "Page 1", description := "", fields := [c5Color],
    actionName := "submit", navigationRule := some c5Rule }

def c5Step2 : Step :=
  { id := "s2", name := "Page 2", description := "", fields := [],
    actionName := "submit2" }

theorem C5_witness :
    executeNavigation [c5Step1, c5Step2] 0 [("color", JSVal.str "Red")] true =
      NavResult.goto 1 := by
  have h := C5_navigation_outcomes [c5Step1, c5Step2] 0
    [("color", JSVal.str "Red")] c5Step1 c5Rule c5Color rfl (by decide) rfl
    rfl (by decide)
  rw [h]
  decide

def c3FieldA : FormField :=
  { id := "a", type := FieldType.text, title := "A", required := false }

def c3FieldB : FormField :=
  { id := "b", type := FieldType.textarea, title := "B", required := false }

def c3Step1 : Step :=
  { id := "s1", name := "Page 1", description := "d1", fields := [c3FieldA],
    actionName := "a1" }

def c3Step2 : Step :=
  { id := "s2", name := "Page 2", description := "d2", fields := [c3FieldB],
    actionName := "a2" }

/-- Claim C3 (code bug): exporting the two-step flow while step 1 is current
attaches `generateAllSchemas` of the CURRENT step to every exported entry:
the entry for step 2 carries step 1's compile result (its `ui:order` is
`["a"]`), not the compile result of its own fields (`ui:order` `["b"]`). -/
theorem C3_export_schemas_bug :
    (exportCompleteFlow "Flow" "2026-01-01T00:00:00.000Z" [c3Step1, c3Step2] 0).map
        (fun fd => fd.steps.map (fun e => e.schemas)) =
      some [generateAllSchemas (some c3Step1), generateAllSchemas (some c3Step1)] ∧
    uiOrderOf (generateAllSchemas (some c3Step1)) = ["a"] ∧
    uiOrderOf (generateAllSchemas (some c3Step2)) = ["b"] :=
  ⟨rfl, rfl, rfl⟩

/-- One equality branch `formData.<id> === '<v>' ? '<n>'` as characters. -/
def eqBranchChars (id v n : List Char) : List Char :=
  fdChars ++ id ++ eqOpen ++ v ++ [qc] ++ eqMid ++ n ++ [qc]

/-- One containment branch `formData.<id>.includes('<v>') ? '<n>'` as
characters. -/
def incBranchChars (id v n : List Char) : List Char :=
  fdChars ++ id ++ incOpen ++ v ++ [qc] ++ incMid ++ n ++ [qc]

/-- The full branch chain `<b1> : <b2> : ... : '<d>'` as characters. -/
def chainChars (mkB : NavCondition → List Char) :
    List NavCondition → List Char → List Char
  | [], d => [qc] ++ d ++ [qc]
  | c :: cs, d => mkB c ++ sepChars ++ chainChars mkB cs d

theorem isPrefixOf_append_self (p r : List Char) :
    p.isPrefixOf (p ++ r) = true := by
  induction p with
  | nil => simp
  | cons a as ih => simp [List.isPrefixOf_cons₂, ih]

theorem stripSeq_append (p r : List Char) : stripSeq p (p ++ r) = some r := by
  simp [stripSeq, isPrefixOf_append_self, List.drop_left]

theorem stripSeq_ne_head (a b : Char) (p s : List Char) (hab : (a == b) = false) :
    stripSeq (a :: p) (b :: s) = none := by
  simp [stripSeq, List.isPrefixOf, hab]

theorem readUntilQuote_append (v r : List Char)
    (hv : ∀ c ∈ v, (c == qc) = false) :
    readUntilQuote (v ++ qc :: r) = some (v, r) := by
  induction v with
  | nil => simp [readUntilQuote]
  | cons c cs ih =>
    have hc : (c == qc) = false := hv c (List.mem_cons_self c cs)
    have ih2 := ih (fun x hx => hv x (List.mem_cons_of_mem c hx))
    simp [readUntilQuote, hc, ih2]

theorem takeWhile_append_stop (p : Char → Bool) (l1 : List Char) (c : Char)
    (l2 : List Char) (h1 : ∀ x ∈ l1, p x = true) (h2 : p c = false) :
    (l1 ++ c :: l2).takeWhile p = l1 ∧ (l1 ++ c :: l2).dropWhile p = c :: l2 := by
  induction l1 with
  | nil => simp [List.takeWhile_cons, List.dropWhile_cons, h2]
  | cons a as ih =>
    have ha : p a = true := h1 a (List.mem_cons_self a as)
    have ih2 := ih (fun x hx => h1 x (List.mem_cons_of_mem a hx))
    simp [List.takeWhile_cons, List.dropWhile_cons, ha, ih2]

theorem parseAux_eqBranch (fuel : Nat) (id v n rest : List Char)
    (hid0 : id ≠ []) (hid : ∀ c ∈ id, isIdChar c = true)
    (hv : ∀ c ∈ v, (c == qc) = false) (hn : ∀ c ∈ n, (c == qc) = false) :
    parseAux (fuel + 1) (eqBranchChars id v n ++ sepChars ++ rest) =
      (match parseAux fuel rest with
       | none => none
       | some e =>
           some { branches := ⟨NavTest.eq (String.mk id) (String.mk v),
                               String.mk n⟩ :: e.branches,
                  dflt := e.dflt }) := by
  have hshape : eqBranchChars id v n ++ sepChars ++ rest =
      fdChars ++ (id ++ (eqOpen ++ (v ++ (qc ::
        (eqMid ++ (n ++ (qc :: (sepChars ++ rest)))))))) := by
    simp [eqBranchChars, List.append_assoc]
  rw [hshape]
  have h1 : stripSeq [qc]
      (fdChars ++ (id ++ (eqOpen ++ (v ++ (qc ::
        (eqMid ++ (n ++ (qc :: (sepChars ++ rest))))))))) = none :=
    stripSeq_ne_head qc 'f' [] _ (by decide)
  have h2 : stripSeq fdChars
      (fdChars ++ (id ++ (eqOpen ++ (v ++ (qc ::
        (eqMid ++ (n ++ (qc :: (sepChars ++ rest))))))))) = some
      (id ++ (eqOpen ++ (v ++ (qc ::
        (eqMid ++ (n ++ (qc :: (sepChars ++ rest)))))))) :=
    stripSeq_append fdChars _
  have hTake := takeWhile_append_stop isIdChar id ' '
    (['=', '=', '=', ' ', qc] ++ (v ++ (qc ::
      (eqMid ++ (n ++ (qc :: (sepChars ++ rest)))))))
    hid (by decide)
  have h3 : (id ++ (eqOpen ++ (v ++ (qc ::
      (eqMid ++ (n ++ (qc :: (sepChars ++ rest)))))))).takeWhile isIdChar =
      id := hTake.1
  have h4 : (id ++ (eqOpen ++ (v ++ (qc ::
      (eqMid ++ (n ++ (qc :: (sepChars ++ rest)))))))).dropWhile isIdChar =
      ' ' :: (['=', '=', '=', ' ', qc] ++ (v ++ (qc ::
        (eqMid ++ (n ++ (qc :: (sepChars ++ rest))))))) := hTake.2
  have hE : id.isEmpty = false := by
    cases id with
    | nil => exact absurd rfl hid0
    | cons a as => rfl
  have h5 : stripSeq incOpen (' ' :: (['=', '=', '=', ' ', qc] ++ (v ++ (qc ::
      (eqMid ++ (n ++ (qc :: (sepChars ++ rest)))))))) = none :=
    stripSeq_ne_head '.' ' ' _ _ (by decide)
  have h6 : stripSeq eqOpen (' ' :: (['=', '=', '=', ' ', qc] ++ (v ++ (qc ::
      (eqMid ++ (n ++ (qc :: (sepChars ++ rest)))))))) = some
      (v ++ (qc :: (eqMid ++ (n ++ (qc :: (sepChars ++ rest)))))) :=
    stripSeq_append eqOpen _
  have h7 : readUntilQuote (v ++ (qc ::
      (eqMid ++ (n ++ (qc :: (sepChars ++ rest)))))) = some
      (v, eqMid ++ (n ++ (qc :: (sepChars ++ rest)))) :=
    readUntilQuote_append v _ hv
  have h8 : stripSeq eqMid (eqMid ++ (n ++ (qc :: (sepChars ++ rest)))) =
      some (n ++ (qc :: (sepChars ++ rest))) := stripSeq_append eqMid _
  have h9 : readUntilQuote (n ++ (qc :: (sepChars ++ rest))) =
      some (n, sepChars ++ rest) := readUntilQuote_append n _ hn
  have h10 : stripSeq sepChars (sepChars ++ rest) = some rest :=
    stripSeq_append sepChars rest
  simp only [parseAux, h1, h2, h3, h4, hE, h5, h6, h7, h8, h9, h10,
    Bool.false_eq_true, if_false]

theorem parseAux_incBranch (fuel : Nat) (id v n rest : List Char)
    (hid0 : id ≠ []) (hid : ∀ c ∈ id, isIdChar c = true)
    (hv : ∀ c ∈ v, (c == qc) = false) (hn : ∀ c ∈ n, (c == qc) = false) :
    parseAux (fuel + 1) (incBranchChars id v n ++ sepChars ++ rest) =
      (match parseAux fuel rest with
       | none => none
       | some e =>
           some { branches := ⟨NavTest.includes (String.mk id) (String.mk v),
                               String.mk n⟩ :: e.branches,
                  dflt := e.dflt }) := by
  have hshape : incBranchChars id v n ++ sepChars ++ rest =
      fdChars ++ (id ++ (incOpen ++ (v ++ (qc ::
        (incMid ++ (n ++ (qc :: (sepChars ++ rest)))))))) := by
    simp [incBranchChars, List.append_assoc]
  rw [hshape]
  have h1 : stripSeq [qc]
      (fdChars ++ (id ++ (incOpen ++ (v ++ (qc ::
        (incMid ++ (n ++ (qc :: (sepChars ++ rest))))))))) = none :=
    stripSeq_ne_head qc 'f' [] _ (by decide)
  have h2 : stripSeq fdChars
      (fdChars ++ (id ++ (incOpen ++ (v ++ (qc ::
        (incMid ++ (n ++ (qc :: (sepChars ++ rest))))))))) = some
      (id ++ (incOpen ++ (v ++ (qc ::
        (incMid ++ (n ++ (qc :: (sepChars ++ rest)))))))) :=
    stripSeq_append fdChars _
  have hTake := takeWhile_append_stop isIdChar id '.'
    (['i', 'n', 'c', 'l', 'u', 'd', 'e', 's', '(', qc] ++ (v ++ (qc ::
      (incMid ++ (n ++ (qc :: (sepChars ++ rest)))))))
    hid (by decide)
  have h3 : (id ++ (incOpen ++ (v ++ (qc ::
      (incMid ++ (n ++ (qc :: (sepChars ++ rest)))))))).takeWhile isIdChar =
      id := hTake.1
  have h4 : (id ++ (incOpen ++ (v ++ (qc ::
      (incMid ++ (n ++ (qc :: (sepChars ++ rest)))))))).dropWhile isIdChar =
      '.' :: (['i', 'n', 'c', 'l', 'u', 'd', 'e', 's', '(', qc] ++ (v ++ (qc ::
        (incMid ++ (n ++ (qc :: (sepChars ++ rest))))))) := hTake.2
  have hE : id.isEmpty = false := by
    cases id with
    | nil => exact absurd rfl hid0
    | cons a as => rfl
  have h5 : stripSeq incOpen
      ('.' :: (['i', 'n', 'c', 'l', 'u', 'd', 'e', 's', '(', qc] ++ (v ++ (qc ::
        (incMid ++ (n ++ (qc :: (sepChars ++ rest)))))))) = some
      (v ++ (qc :: (incMid ++ (n ++ (qc :: (sepChars ++ rest)))))) :=
    stripSeq_append incOpen _
  have h7 : readUntilQuote (v ++ (qc ::
      (incMid ++ (n ++ (qc :: (sepChars ++ rest)))))) = some
      (v, incMid ++ (n ++ (qc :: (sepChars ++ rest)))) :=
    readUntilQuote_append v _ hv
  have h8 : stripSeq incMid (incMid ++ (n ++ (qc :: (sepChars ++ rest)))) =
      some (n ++ (qc :: (sepChars ++ rest))) := stripSeq_append incMid _
  have h9 : readUntilQuote (n ++ (qc :: (sepChars ++ rest))) =
      some (n, sepChars ++ rest) := readUntilQuote_append n _ hn
  have h10 : stripSeq sepChars (sepChars ++ rest) = some rest :=
    stripSeq_append sepChars rest
  simp only [parseAux, h1, h2, h3, h4, hE, h5, h7, h8, h9, h10,
    Bool.false_eq_true, if_false]

theorem parseAux_literal (fuel : Nat) (d : List Char)
    (hd : ∀ c ∈ d, (c == qc) = false) :
    parseAux (fuel + 1) ([qc] ++ d ++ [qc]) =
      some { branches := [], dflt := String.mk d } := by
  have h1 : stripSeq [qc] ([qc] ++ (d ++ [qc])) = some (d ++ [qc]) :=
    stripSeq_append [qc] _
  have h2 : readUntilQuote (d ++ [qc]) = some (d, []) := by
    have := readUntilQuote_append d [] hd
    simpa using this
  simp only [List.append_assoc, parseAux, h1, h2, List.isEmpty_nil, if_true]

theorem parseAux_chain_eq (fid : List Char) (hid0 : fid ≠ [])
    (hid : ∀ c ∈ fid, isIdChar c = true) (d : List Char)
    (hd : ∀ c ∈ d, (c == qc) = false) :
    ∀ (cs : List NavCondition) (fuel : Nat), cs.length < fuel →
      (∀ c ∈ cs, (∀ ch ∈ c.value.data, (ch == qc) = false) ∧
        (∀ ch ∈ c.nextStepName.data, (ch == qc) = false)) →
      parseAux fuel
          (chainChars
            (fun c => eqBranchChars fid c.value.data c.nextStepName.data) cs d) =
        some { branches := cs.map (fun c =>
                 ⟨NavTest.eq (String.mk fid) c.value, c.nextStepName⟩),
               dflt := String.mk d } := by
  intro cs
  induction cs with
  | nil =>
    intro fuel hf _
    cases fuel with
    | zero => exact absurd hf (by omega)
    | succ f => exact parseAux_literal f d hd
  | cons c cs' ih =>
    intro fuel hf hclean
    cases fuel with
    | zero => exact absurd hf (by omega)
    | succ f =>
      have hc := hclean c (List.mem_cons_self c cs')
      have hstep := parseAux_eqBranch f fid c.value.data c.nextStepName.data
        (chainChars (fun c => eqBranchChars fid c.value.data c.nextStepName.data)
          cs' d) hid0 hid hc.1 hc.2
      rw [show chainChars
            (fun c => eqBranchChars fid c.value.data c.nextStepName.data)
            (c :: cs') d =
          eqBranchChars fid c.value.data c.nextStepName.data ++ sepChars ++
            chainChars
              (fun c => eqBranchChars fid c.value.data c.nextStepName.data)
              cs' d from rfl]
      rw [hstep]
      rw [ih f (by simp at hf; omega)
        (fun x hx => hclean x (List.mem_cons_of_mem c hx))]
      rfl

theorem parseAux_chain_inc (fid : List Char) (hid0 : fid ≠ [])
    (hid : ∀ c ∈ fid, isIdChar c = true) (d : List Char)
    (hd : ∀ c ∈ d, (c == qc) = false) :
    ∀ (cs : List NavCondition) (fuel : Nat), cs.length < fuel →
      (∀ c ∈ cs, (∀ ch ∈ c.value.data, (ch == qc) = false) ∧
        (∀ ch ∈ c.nextStepName.data, (ch == qc) = false)) →
      parseAux fuel
          (chainChars
            (fun c => incBranchChars fid c.value.data c.nextStepName.data) cs d) =
        some { branches := cs.map (fun c =>
                 ⟨NavTest.includes (String.mk fid) c.value, c.nextStepName⟩),
               dflt := String.mk d } := by
  intro cs
  induction cs with
  | nil =>
    intro fuel hf _
    cases fuel with
    | zero => exact absurd hf (by omega)
    | succ f => exact parseAux_literal f d hd
  | cons c cs' ih =>
    intro fuel hf hclean
    cases fuel with
    | zero => exact absurd hf (by omega)
    | succ f =>
      have hc := hclean c (List.mem_cons_self c cs')
      have hstep := parseAux_incBranch f fid c.value.data c.nextStepName.data
        (chainChars (fun c => incBranchChars fid c.value.data c.nextStepName.data)
          cs' d) hid0 hid hc.1 hc.2
      rw [show chainChars
            (fun c => incBranchChars fid c.value.data c.nextStepName.data)
            (c :: cs') d =
          incBranchChars fid c.value.data c.nextStepName.data ++ sepChars ++
            chainChars
              (fun c => incBranchChars fid c.value.data c.nextStepName.data)
              cs' d from rfl]
      rw [hstep]
      rw [ih f (by simp at hf; omega)
        (fun x hx => hclean x (List.mem_cons_of_mem c hx))]
      rfl

theorem chainChars_length_ge (mkB : NavCondition → List Char) :
    ∀ (cs : List NavCondition) (d : List Char),
      cs.length ≤ (chainChars mkB cs d).length := by
  intro cs
  induction cs with
  | nil => intro d; simp
  | cons c cs' ih =>
    intro d
    have := ih d
    simp only [chainChars, List.length_cons, List.length_append, sepChars]
    simp at this ⊢
    omega

theorem data_formData : "formData.".data = fdChars := by decide

theorem data_eqOpen : " === \x27".data = eqOpen := by decide

theorem data_quote_qm : "\x27 ? \x27".data = qc :: eqMid := by decide

theorem data_quote : "\x27".data = [qc] := by decide

theorem data_sep_quote : " : \x27".data = sepChars ++ [qc] := by decide

theorem data_sep : " : ".data = sepChars := by decide

theorem data_incOpen : ".includes(\x27".data = incOpen := by decide

theorem data_inc_close : "\x27) ? \x27".data = qc :: incMid := by decide

theorem join_data_eq (fid d : String) :
    ∀ (c : NavCondition) (cs : List NavCondition),
      (joinSep " : " ((c :: cs).map (fun cond =>
          "formData." ++ fid ++ " === \x27" ++ cond.value ++
            "\x27 ? \x27" ++ cond.nextStepName ++ "\x27"))
        ++ " : \x27" ++ d ++ "\x27").data =
      chainChars
        (fun cond => eqBranchChars fid.data cond.value.data cond.nextStepName.data)
        (c :: cs) d.data := by
  intro c cs
  induction cs generalizing c with
  | nil =>
    simp [joinSep, chainChars, eqBranchChars, String.data_append,
      data_formData, data_eqOpen, data_quote_qm, data_quote, data_sep_quote,
      fdChars, eqOpen, eqMid, sepChars, qc, List.append_assoc]
  | cons c2 cs2 ih =>
    have hjoin : joinSep " : " (((c :: c2 :: cs2).map (fun cond =>
        "formData." ++ fid ++ " === \x27" ++ cond.value ++
          "\x27 ? \x27" ++ cond.nextStepName ++ "\x27"))) =
        ("formData." ++ fid ++ " === \x27" ++ c.value ++
          "\x27 ? \x27" ++ c.nextStepName ++ "\x27") ++ " : " ++
        joinSep " : " ((c2 :: cs2).map (fun cond =>
          "formData." ++ fid ++ " === \x27" ++ cond.value ++
            "\x27 ? \x27" ++ cond.nextStepName ++ "\x27")) := rfl
    rw [hjoin]
    have ih2 := ih c2
    simp only [chainChars, eqBranchChars] at ih2 ⊢
    simp [String.data_append, data_formData, data_eqOpen, data_quote_qm,
      data_quote, data_sep, fdChars, eqOpen, eqMid, sepChars, qc,
      List.append_assoc] at ih2 ⊢
    rw [ih2]

theorem join_data_inc (fid d : String) :
    ∀ (c : NavCondition) (cs : List NavCondition),
      (joinSep " : " ((c :: cs).map (fun cond =>
          "formData." ++ fid ++ ".includes(\x27" ++ cond.value ++
            "\x27) ? \x27" ++ cond.nextStepName ++ "\x27"))
        ++ " : \x27" ++ d ++ "\x27").data =
      chainChars
        (fun cond => incBranchChars fid.data cond.value.data cond.nextStepName.data)
        (c :: cs) d.data := by
  intro c cs
  induction cs generalizing c with
  | nil =>
    simp [joinSep, chainChars, incBranchChars, String.data_append,
      data_formData, data_incOpen, data_inc_close, data_quote, data_sep_quote,
      fdChars, incOpen, incMid, sepChars, qc, List.append_assoc]
  | cons c2 cs2 ih =>
    have hjoin : joinSep " : " (((c :: c2 :: cs2).map (fun cond =>
        "formData." ++ fid ++ ".includes(\x27" ++ cond.value ++
          "\x27) ? \x27" ++ cond.nextStepName ++ "\x27"))) =
        ("formData." ++ fid ++ ".includes(\x27" ++ c.value ++
          "\x27) ? \x27" ++ c.nextStepName ++ "\x27") ++ " : " ++
        joinSep " : " ((c2 :: cs2).map (fun cond =>
          "formData." ++ fid ++ ".includes(\x27" ++ cond.value ++
            "\x27) ? \x27" ++ cond.nextStepName ++ "\x27")) := rfl
    rw [hjoin]
    have ih2 := ih c2
    simp only [chainChars, incBranchChars] at ih2 ⊢
    simp [String.data_append, data_formData, data_incOpen, data_inc_close,
      data_quote, data_sep, fdChars, incOpen, incMid, sepChars, qc,
      List.append_assoc] at ih2 ⊢
    rw [ih2]

theorem convert_guard_false (rule : NavigationRule) (hfid : rule.fieldId ≠ "")
    (hconds : rule.conditions ≠ []) :
    (!(jsTruthyStr (some rule.fieldId)) || rule.conditions.isEmpty) = false := by
  have h1 : (rule.fieldId == "") = false := by simp [hfid]
  have h2 : rule.conditions.isEmpty = false := by
    cases hcs : rule.conditions with
    | nil => exact absurd hcs hconds
    | cons a l => rfl
  simp [jsTruthyStr, h1, h2]

theorem convert_data_eq_kind (fields : List FormField) (rule : NavigationRule)
    (field : FormField)
    (hfid : rule.fieldId ≠ "") (hconds : rule.conditions ≠ [])
    (hfind : fields.find? (fun f => f.id == rule.fieldId) = some field)
    (hck : field.type ≠ FieldType.checkbox) :
    (convertToExpression fields rule).data =
      chainChars
        (fun c => eqBranchChars rule.fieldId.data c.value.data c.nextStepName.data)
        rule.conditions (jsOrStr rule.defaultStepName "continue").data := by
  unfold convertToExpression
  rw [if_neg (by simp [convert_guard_false rule hfid hconds]), hfind]
  simp only []
  rw [if_neg hck]
  cases hcs : rule.conditions with
  | nil => exact absurd hcs hconds
  | cons c cs => exact join_data_eq rule.fieldId (jsOrStr rule.defaultStepName "continue") c cs

theorem convert_data_inc_kind (fields : List FormField) (rule : NavigationRule)
    (field : FormField)
    (hfid : rule.fieldId ≠ "") (hconds : rule.conditions ≠ [])
    (hfind : fields.find? (fun f => f.id == rule.fieldId) = some field)
    (hck : field.type = FieldType.checkbox) :
    (convertToExpression fields rule).data =
      chainChars
        (fun c => incBranchChars rule.fieldId.data c.value.data c.nextStepName.data)
        rule.conditions (jsOrStr rule.defaultStepName "continue").data := by
  unfold convertToExpression
  rw [if_neg (by simp [convert_guard_false rule hfid hconds]), hfind]
  simp only []
  rw [if_pos hck]
  cases hcs : rule.conditions with
  | nil => exact absurd hcs hconds
  | cons c cs => exact join_data_inc rule.fieldId (jsOrStr rule.defaultStepName "continue") c cs

theorem evalBranches_eq_kind (answers : AnswerRecord) (fid d : String) :
    ∀ cs : List NavCondition,
      evalBranches answers d
          (cs.map (fun c => ⟨NavTest.eq fid c.value, c.nextStepName⟩)) =
        some (match cs.find?
                (fun cond => jsStrictEqStr (List.lookup fid answers) cond.value) with
              | some cond => cond.nextStepName
              | none => d) := by
  intro cs
  induction cs with
  | nil => rfl
  | cons c cs ih =>
    simp only [List.map_cons, evalBranches, evalNavTest, List.find?_cons]
    cases h : jsStrictEqStr (List.lookup fid answers) c.value
    · simp [h, ih]
    · simp [h]

theorem evalBranches_inc_kind (answers : AnswerRecord) (fid d : String)
    (xs : List String)
    (hx : List.lookup fid answers = some (JSVal.arr xs)) :
    ∀ cs : List NavCondition,
      evalBranches answers d
          (cs.map (fun c => ⟨NavTest.includes fid c.value, c.nextStepName⟩)) =
        some (match cs.find? (fun cond => xs.contains cond.value) with
              | some cond => cond.nextStepName
              | none => d) := by
  intro cs
  induction cs with
  | nil => rfl
  | cons c cs ih =>
    simp only [List.map_cons, evalBranches, evalNavTest, List.find?_cons, hx]
    cases h : xs.contains c.value
    · simp [h, ih]
    · simp [h]

/-- Claim C1 (amended): provided the rule's conditions are non-empty, its
`fieldId` is non-empty, made of identifier characters and resolves to a
field of the step, no condition value, target name or resolved default
contains an apostrophe, and a checkbox driver's answer is an array, then
parsing-and-evaluating the expression built by `convertToExpression` against
the answers yields exactly the first-match target the evaluator resolves
natively. -/
theorem C1_expression_agrees_with_evaluator (fields : List FormField)
    (rule : NavigationRule) (answers : AnswerRecord) (field : FormField)
    (hfid : rule.fieldId ≠ "")
    (hconds : rule.conditions ≠ [])
    (hfind : fields.find? (fun f => f.id == rule.fieldId) = some field)
    (hid : ∀ c ∈ rule.fieldId.data, isIdChar c = true)
    (hclean : ∀ c ∈ rule.conditions,
      (∀ ch ∈ c.value.data, (ch == qc) = false) ∧
      (∀ ch ∈ c.nextStepName.data, (ch == qc) = false))
    (hdef : ∀ ch ∈ (jsOrStr rule.defaultStepName "continue").data,
      (ch == qc) = false)
    (hcb : field.type = FieldType.checkbox →
      ∃ xs, List.lookup rule.fieldId answers = some (JSVal.arr xs)) :
    parseEvalNavExpression (convertToExpression fields rule) answers =
      some (resolveTargetStep field rule (List.lookup rule.fieldId answers)) := by
  have hid0 : rule.fieldId.data ≠ [] := by
    intro h
    exact hfid (congrArg String.mk h)
  unfold parseEvalNavExpression parseNavExpression
  by_cases hk : field.type = FieldType.checkbox
  · obtain ⟨xs, hx⟩ := hcb hk
    rw [convert_data_inc_kind fields rule field hfid hconds hfind hk]
    have hlen : rule.conditions.length <
        (chainChars
          (fun c => incBranchChars rule.fieldId.data c.value.data c.nextStepName.data)
          rule.conditions (jsOrStr rule.defaultStepName "continue").data).length + 1 := by
      have := chainChars_length_ge
        (fun c => incBranchChars rule.fieldId.data c.value.data c.nextStepName.data)
        rule.conditions (jsOrStr rule.defaultStepName "continue").data
      omega
    rw [parseAux_chain_inc rule.fieldId.data hid0 hid
      (jsOrStr rule.defaultStepName "continue").data hdef rule.conditions _
      hlen hclean]
    simp only []
    unfold evalNavExpr
    rw [show String.mk rule.fieldId.data = rule.fieldId from rfl]
    rw [evalBranches_inc_kind answers rule.fieldId
      (String.mk (jsOrStr rule.defaultStepName "continue").data) xs hx
      rule.conditions]
    unfold resolveTargetStep
    rw [if_pos hk, hx]
    rfl
  · rw [convert_data_eq_kind fields rule field hfid hconds hfind hk]
    have hlen : rule.conditions.length <
        (chainChars
          (fun c => eqBranchChars rule.fieldId.data c.value.data c.nextStepName.data)
          rule.conditions (jsOrStr rule.defaultStepName "continue").data).length + 1 := by
      have := chainChars_length_ge
        (fun c => eqBranchChars rule.fieldId.data c.value.data c.nextStepName.data)
        rule.conditions (jsOrStr rule.defaultStepName "continue").data
      omega
    rw [parseAux_chain_eq rule.fieldId.data hid0 hid
      (jsOrStr rule.defaultStepName "continue").data hdef rule.conditions _
      hlen hclean]
    simp only []
    unfold evalNavExpr
    rw [show String.mk rule.fieldId.data = rule.fieldId from rfl]
    rw [evalBranches_eq_kind answers rule.fieldId
      (String.mk (jsOrStr rule.defaultStepName "continue").data)
      rule.conditions]
    unfold resolveTargetStep
    rw [if_neg hk]

theorem C1_witness :
    parseEvalNavExpression (convertToExpression [c5Color] c5Rule)
        [("color", JSVal.str "Red")] = some "Page 2" := by
  have h := C1_expression_agrees_with_evaluator [c5Color] c5Rule
    [("color", JSVal.str "Red")] c5Color (by decide) (by simp [c5Rule]) rfl
    (by decide) (by decide) (by decide) (fun hk => absurd hk (by decide))
  rw [h]
  decide

def c1EmptyRule : NavigationRule :=
  { fieldId := "color", conditions := [], defaultStepName := some "X" }

/-- Claim C1 counterexample: for a rule with an empty condition list and the
default target `X`, the builder emits the literal `'continue'`, which
parses-and-evaluates to `continue`, while the evaluator's native first-match
decision resolves the default `X` — the two renderings diverge. -/
theorem C1_counterexample :
    parseEvalNavExpression (convertToExpression [c5Color] c1EmptyRule)
        [("color", JSVal.str "Red")] = some "continue" ∧
    resolveTargetStep c5Color c1EmptyRule
        (List.lookup "color" [("color", JSVal.str "Red")]) = "X" ∧
    ("continue" : String) ≠ "X" :=
  ⟨by decide, by decide, by decide⟩

def c7Title : FormField :=
  { id := "hdr", type := FieldType.title, title := "Header", required := false }

def c7Text : FormField :=
  { id := "nm", type := FieldType.text, title := "Name", required := true }

theorem C7_witness :
    List.lookup "nm" (generateFormData [c7Title, c7Text]) =
      some (JSVal.str "") := by
  have h := C7_generate_form_data [c7Title, c7Text] c7Text
    (List.mem_cons_of_mem c7Title (List.mem_cons_self c7Text []))
    (by decide)
  exact h
